import Mathlib

/-!
Shallow embedding of the Car-Pooling backend core
(`src/backend/src/controllers/ride.controller.js`,
`src/backend/src/controllers/user.controller.js`,
the payment controller, `src/backend/src/models/ride.model.js`,
`src/backend/src/models/user.model.js`).

Modelling conventions:
* MongoDB object ids become `Nat`.
* JS numbers become `Rat` (the arithmetic in scope — additions,
  subtractions, the impact formulas — is carried out symbolically,
  exactly as the source writes it).
* Each Express handler becomes a pure function from its inputs and the
  persisted state to `Except Err _` (or to `state × Option Err` where a
  handler can persist writes and still report an error).  The various
  HTTP error responses of the handlers are mapped to the error kinds of
  the specification: 404 → `notFound`, 401 → `unauthorized`,
  the 400 "duplicate / self-request / ride full / payment already made"
  responses → `conflict`, the 400 lifecycle-guard responses
  ("already in_progress", "must be in progress", ...) →
  `invalidTransition`, "Insufficient balance" → `insufficientFunds`,
  "Transaction is already X" → `invalidState`, and a Mongoose
  schema-validation failure raised by `document.save()` →
  `validationFailed`.
* `ride.save()` and `Transaction.create` run the schema validators
  (Mongoose default); the validators a handler in scope can trip are
  `availableSeats: { min: 1 }` (ride.model.js lines 93–97) and the
  transaction schema's `paymentMethod` enum
  `['wallet', 'card', 'upi', 'netbanking', 'cash']` (transaction model,
  second file of notification.model.js, lines 96–100), which
  `withdrawFunds`'s hardcoded `'bank_transfer'` violates — the other
  enum-valued fields are represented by inductive types, so they cannot
  hold out-of-range values in the embedding.  A failed `save`/`create`
  leaves the store unchanged.
* Notification creation is fire-and-forget and observed by no claim; it
  is not modelled.  The `ridesAsDriver`/`ridesAsPassenger` history lists
  are likewise not observed by any claim in scope and are omitted.
-/

abbrev UserId := Nat
abbrev RideId := Nat

inductive PassStatus
  | pending
  | accepted
  | rejected
  | cancelled
deriving DecidableEq, Repr

inductive RideStatus
  | scheduled
  | in_progress
  | completed
  | cancelled
deriving DecidableEq, Repr

inductive Err
  | notFound
  | unauthorized
  | conflict
  | invalidTransition
  | insufficientFunds
  | invalidState
  | validationFailed
deriving DecidableEq, Repr

inductive FareStatus
  | pending
  | paid
  | refunded
deriving DecidableEq, Repr

/-- The `fare` sub-document of a passenger entry.  Mongoose materialises
it with its defaults (`status: 'pending'`, no amount) as soon as the
entry is created. -/
structure Fare where
  amount : Option Rat
  fstatus : FareStatus
deriving DecidableEq, Repr

/-- A passenger entry embedded in a ride (ride.model.js lines 98–150);
pickup/dropoff locations and the embedded rating are not observed by the
properties in scope. -/
structure Passenger where
  user : UserId
  status : PassStatus
  fare : Fare
deriving DecidableEq, Repr

abbrev Loc := Rat × Rat

/-- A ride document (ride.model.js).  `initialSeats` is a history
variable recording the seat count supplied at creation; no operation
after creation touches it.  `routeDistance` and `fuelEfficiency` are
optional numbers (`route.distance`, `vehicle.fuelEfficiency`). -/
structure Ride where
  id : RideId
  driver : UserId
  availableSeats : Int
  initialSeats : Int
  passengers : List Passenger
  status : RideStatus
  routeDistance : Option Rat
  fuelEfficiency : Option Rat
  startLocation : Loc
  endLocation : Loc
  currentLocation : Option Loc
deriving DecidableEq, Repr

/-- `document.save()` with Mongoose validation: the `availableSeats`
path carries `min: 1` (ride.model.js lines 93–97), so a save of a
document whose `availableSeats` is below 1 rejects with a
ValidationError and persists nothing. -/
def saveRide (r : Ride) : Except Err Ride :=
  if r.availableSeats < 1 then .error .validationFailed else .ok r

/-- Number of passenger entries whose status is `accepted`. -/
def countAccepted (r : Ride) : Int :=
  ((r.passengers.filter (fun p => p.status = .accepted)).length : Int)

/-- JS `x || d` on an optional number: `undefined` and `0` are falsy. -/
def jsNum (o : Option Rat) (d : Rat) : Rat :=
  match o with
  | none => d
  | some x => if x = 0 then d else x

/-- Update the first element satisfying `f` (JS `findIndex` followed by
an in-place mutation); `none` when `findIndex` returns `-1`. -/
def updateFirst (f : Passenger → Bool) (g : Passenger → Passenger) :
    List Passenger → Option (List Passenger)
  | [] => none
  | p :: ps =>
      if f p then some (g p :: ps)
      else (updateFirst f g ps).map (fun qs => p :: qs)

/-- Remove the first element satisfying `f` (JS `findIndex` followed by
`splice(i, 1)`), returning the removed element and the remainder. -/
def removeFirst (f : Passenger → Bool) :
    List Passenger → Option (Passenger × List Passenger)
  | [] => none
  | p :: ps =>
      if f p then some (p, ps)
      else (removeFirst f ps).map (fun x => (x.1, p :: x.2))

/-- `createRide` (ride.controller.js lines 9–41): the driver supplies
the seat count and ride data; `Ride.create` runs the schema validators
(in particular `availableSeats ≥ 1`), the passenger list starts empty. -/
def createRide (driver : UserId) (id : RideId) (seats : Int)
    (dist eff : Option Rat) (sLoc eLoc : Loc) : Except Err Ride :=
  saveRide
    { id := id, driver := driver, availableSeats := seats,
      initialSeats := seats, passengers := [], status := .scheduled,
      routeDistance := dist, fuelEfficiency := eff,
      startLocation := sLoc, endLocation := eLoc, currentLocation := none }

/-- `requestRide` (ride.controller.js lines 299–374), for a ride that
was found: self-request, duplicate entry and a full ride are rejected
(400, mapped to `conflict`); otherwise a `pending` entry is pushed and
the ride saved.  The ride `status` field is never read. -/
def requestRide (uid : UserId) (r : Ride) : Except Err Ride :=
  if r.driver = uid then .error .conflict
  else if r.passengers.any (fun p => p.user = uid) then .error .conflict
  else if r.availableSeats ≤ 0 then .error .conflict
  else
    saveRide { r with
      passengers :=
        r.passengers ++ [{ user := uid, status := .pending,
                           fare := { amount := none, fstatus := .pending } }] }

/-- `respondToRideRequest` (ride.controller.js lines 379–446): only the
driver may respond; the first entry for the target user that is still
`pending` is updated to the requested status; on `accepted` the seat
count is decremented — with no capacity re-check — before `ride.save()`
runs the schema validators. -/
def respondToRideRequest (caller target : UserId) (st : PassStatus)
    (r : Ride) : Except Err Ride :=
  if r.driver ≠ caller then .error .unauthorized
  else
    match updateFirst
        (fun p => p.user = target ∧ p.status = .pending)
        (fun p => { p with status := st }) r.passengers with
    | none => .error .notFound
    | some ps =>
        saveRide { r with
          passengers := ps,
          availableSeats :=
            if st = .accepted then r.availableSeats - 1
            else r.availableSeats }

/-- `cancelRideRequest` (ride.controller.js lines 451–506): the first
entry for the calling user is removed; if it was `accepted` the seat is
restored. -/
def cancelRideRequest (uid : UserId) (r : Ride) : Except Err Ride :=
  match removeFirst (fun p => p.user = uid) r.passengers with
  | none => .error .notFound
  | some (p, ps) =>
      saveRide { r with
        passengers := ps,
        availableSeats :=
          if p.status = .accepted then r.availableSeats + 1
          else r.availableSeats }

/-- `startRide` (ride.controller.js lines 511–568). -/
def startRide (caller : UserId) (r : Ride) : Except Err Ride :=
  if r.driver ≠ caller then .error .unauthorized
  else if r.status ≠ .scheduled then .error .invalidTransition
  else
    saveRide { r with status := .in_progress,
                      currentLocation := some r.startLocation }

/-- `updateRideLocation` (ride.controller.js lines 765–810). -/
def updateRideLocation (caller : UserId) (loc : Loc) (r : Ride) :
    Except Err Ride :=
  if r.driver ≠ caller then .error .unauthorized
  else if r.status ≠ .in_progress then .error .invalidTransition
  else saveRide { r with currentLocation := some loc }

/-- `cancelRide` (ride.controller.js lines 665–760): a driver cancels
the whole ride; an accepted passenger cancels their participation — the
code finds their entry by user id alone, marks it `cancelled` and
restores one seat. -/
def cancelRide (caller : UserId) (r : Ride) : Except Err Ride :=
  let isDriver := r.driver = caller
  let isPassenger :=
    r.passengers.any (fun p => p.user = caller ∧ p.status = .accepted)
  if ¬isDriver ∧ ¬isPassenger then .error .unauthorized
  else if r.status = .completed ∨ r.status = .cancelled then
    .error .invalidTransition
  else if isDriver then
    saveRide { r with status := .cancelled }
  else
    match updateFirst (fun p => p.user = caller)
        (fun p => { p with status := .cancelled }) r.passengers with
    | none => .error .notFound
    | some ps =>
        saveRide { r with passengers := ps,
                          availableSeats := r.availableSeats + 1 }

/-- Per-user environmental-impact accumulators (user.model.js). -/
structure Impact where
  co2Saved : Rat
  fuelSaved : Rat
  treesEquivalent : Rat
deriving DecidableEq, Repr

def Impact.add (a b : Impact) : Impact :=
  { co2Saved := a.co2Saved + b.co2Saved,
    fuelSaved := a.fuelSaved + b.fuelSaved,
    treesEquivalent := a.treesEquivalent + b.treesEquivalent }

/-- A ride together with the persisted per-user impact accumulators that
`completeRide` mutates. -/
structure RideCtx where
  ride : Ride
  impacts : UserId → Impact

/-- One iteration of the passenger loop in `completeRide`: load the
passenger's user document afresh and add the per-passenger share to its
accumulators. -/
def creditImpact (share : Impact) (f : UserId → Impact) (p : Passenger) :
    UserId → Impact :=
  fun u => if u = p.user then (f p.user).add share else f u

/-- `completeRide` (ride.controller.js lines 573–660): guards, then the
status flip is saved, then the impact figures are computed
(`distance * passengerCount / efficiency`, `* 2.3`, `/ 22`, with the JS
`|| 0` / `|| 15` defaults) and credited: the driver receives the full
amount, each accepted passenger — loaded and saved one by one, in list
order — receives `total / passengerCount`. -/
def completeRide (caller : UserId) (ctx : RideCtx) : Except Err RideCtx :=
  let r := ctx.ride
  if r.driver ≠ caller then .error .unauthorized
  else if r.status ≠ .in_progress then .error .invalidTransition
  else
    match saveRide { r with status := .completed,
                            currentLocation := some r.endLocation } with
    | .error e => .error e
    | .ok r' =>
        let accepted := r.passengers.filter (fun p => p.status = .accepted)
        let distance := jsNum r.routeDistance 0
        let efficiency := jsNum r.fuelEfficiency 15
        let passengerCount : Rat := (accepted.length : Rat)
        let fuelSaved := distance * passengerCount / efficiency
        let co2Saved := fuelSaved * (23/10 : Rat)
        let treesEquivalent := co2Saved / 22
        let full : Impact :=
          { co2Saved := co2Saved, fuelSaved := fuelSaved,
            treesEquivalent := treesEquivalent }
        let share : Impact :=
          { co2Saved := co2Saved / passengerCount,
            fuelSaved := fuelSaved / passengerCount,
            treesEquivalent := treesEquivalent / passengerCount }
        let afterDriver : UserId → Impact := fun u =>
          if u = r.driver then (ctx.impacts r.driver).add full
          else ctx.impacts u
        let finalImpacts := accepted.foldl (creditImpact share) afterDriver
        .ok { ride := r', impacts := finalImpacts }

/-- The ride-mutating operations of the controller, for stating
state-machine invariants uniformly. -/
inductive RideOp
  | request (uid : UserId)
  | respond (caller target : UserId) (st : PassStatus)
  | cancelRequest (uid : UserId)
  | start (caller : UserId)
  | complete (caller : UserId)
  | cancel (caller : UserId)
  | updateLocation (caller : UserId) (loc : Loc)

/-- Lift a ride-only operation to the context. -/
def liftRide (f : Ride → Except Err Ride) (ctx : RideCtx) :
    Except Err RideCtx :=
  match f ctx.ride with
  | .error e => .error e
  | .ok r => .ok { ctx with ride := r }

def applyRideOp : RideOp → RideCtx → Except Err RideCtx
  | .request uid, ctx => liftRide (requestRide uid) ctx
  | .respond c t st, ctx => liftRide (respondToRideRequest c t st) ctx
  | .cancelRequest uid, ctx => liftRide (cancelRideRequest uid) ctx
  | .start c, ctx => liftRide (startRide c) ctx
  | .complete c, ctx => completeRide c ctx
  | .cancel c, ctx => liftRide (cancelRide c) ctx
  | .updateLocation c l, ctx => liftRide (updateRideLocation c l) ctx

/-- The seat-accounting invariant of the specification: seats never
negative, and seats plus accepted passengers equal the seat count
supplied at creation. -/
def SeatInv (r : Ride) : Prop :=
  0 ≤ r.availableSeats ∧ r.availableSeats + countAccepted r = r.initialSeats

/-- At most one passenger entry per user (a ride invariant the request
guard enforces). -/
def UniqueUsers (r : Ride) : Prop :=
  (r.passengers.map (fun p => p.user)).Nodup

instance (r : Ride) : Decidable (SeatInv r) := by
  unfold SeatInv; infer_instance

instance (r : Ride) : Decidable (UniqueUsers r) := by
  unfold UniqueUsers; infer_instance

/-! ## Ledger (payment controller, `src/unnamed/part_001`) -/

inductive TxType
  | wallet_topup
  | wallet_withdrawal
  | ride_payment
  | refund
deriving DecidableEq, Repr

inductive TxStatus
  | pending
  | completed
deriving DecidableEq, Repr

/-- The payment-method strings that occur in the sources: the five
values of the transaction schema's `paymentMethod` enum plus the
`'bank_transfer'` constant that `withdrawFunds` hardcodes.  The
controller itself only branches on whether the method is the literal
string `'wallet'`. -/
inductive PayMethod
  | wallet
  | card
  | upi
  | netbanking
  | cash
  | bank_transfer
deriving DecidableEq, Repr

/-- Membership in the transaction schema's `paymentMethod` enum
`['wallet', 'card', 'upi', 'netbanking', 'cash']` (transaction model,
second file of notification.model.js, lines 96–100).  `'bank_transfer'`
is not a member. -/
def validPaymentMethod : PayMethod → Bool
  | .wallet => true
  | .card => true
  | .upi => true
  | .netbanking => true
  | .cash => true
  | .bank_transfer => false

/-- A Transaction document, as the transaction schema declares it and
the payment controller populates it; every field here is one the
controller reads or writes (the enum-valued `type`/`status` fields are
inductive, so only `paymentMethod` needs an explicit validity check). -/
structure Txn where
  sender : UserId
  receiver : UserId
  amount : Rat
  type : TxType
  status : TxStatus
  method : PayMethod
  ride : Option RideId
deriving DecidableEq, Repr

/-- `Transaction.create` runs the schema validators; a `paymentMethod`
outside the schema enum makes it reject with a ValidationError and
persist nothing. -/
def createTxn (t : Txn) : Except Err Txn :=
  if validPaymentMethod t.method then .ok t else .error .validationFailed

/-- The persisted state the ledger operations touch: every user's
wallet balance, the global transaction collection (a transaction's id is
its index in creation order), and the ride collection. -/
structure LedgerState where
  balances : UserId → Rat
  txs : List Txn
  rides : List Ride

def findRideById (s : LedgerState) (rid : RideId) : Option Ride :=
  s.rides.find? (fun r => r.id = rid)

def setBalance (f : UserId → Rat) (u : UserId) (v : Rat) : UserId → Rat :=
  fun x => if x = u then v else f x

def emptyLedger : LedgerState :=
  { balances := fun _ => 0, txs := [], rides := [] }

/-- `addFundsToWallet` (payment controller lines 29–73): creates a
`completed` `wallet_topup` transaction whose sender *and* receiver are
the topping-up user (the caller-supplied payment method must pass the
schema enum), then credits the balance. -/
def addFundsToWallet (uid : UserId) (amount : Rat) (method : PayMethod)
    (s : LedgerState) : LedgerState × Option Err :=
  match createTxn { sender := uid, receiver := uid, amount := amount,
                    type := .wallet_topup, status := .completed,
                    method := method, ride := none } with
  | .error e => (s, some e)
  | .ok tx =>
      ({ s with
          txs := s.txs ++ [tx],
          balances := setBalance s.balances uid (s.balances uid + amount) },
       none)

/-- `withdrawFunds` (payment controller lines 78–131): rejects when the
balance is below the amount; otherwise it calls `Transaction.create`
with the hardcoded `paymentMethod: 'bank_transfer'` — which is not in
the schema's enum, so creation always throws and the subsequent debit is
never reached.  (Only the insufficient-funds path behaves as the spec
describes.) -/
def withdrawFunds (uid : UserId) (amount : Rat) (s : LedgerState) :
    LedgerState × Option Err :=
  if s.balances uid < amount then (s, some .insufficientFunds)
  else
    match createTxn { sender := uid, receiver := uid, amount := amount,
                      type := .wallet_withdrawal, status := .pending,
                      method := .bank_transfer, ride := none } with
    | .error e => (s, some e)
    | .ok tx =>
        ({ s with
            txs := s.txs ++ [tx],
            balances := setBalance s.balances uid (s.balances uid - amount) },
         none)

/-- Replace a ride in the collection (what `ride.save()` persists for a
document fetched by id; the payment controller never touches
`availableSeats`, so the seat validator cannot newly fail here). -/
def storeRide (s : LedgerState) (r : Ride) : LedgerState :=
  { s with rides := s.rides.map (fun x => if x.id = r.id then r else x) }

/-- Set the fare of the first passenger entry satisfying `f`. -/
def setFareFirst (f : Passenger → Bool) (fare : Fare) (r : Ride) : Ride :=
  match updateFirst f (fun p => { p with fare := fare }) r.passengers with
  | none => r
  | some ps => { r with passengers := ps }

/-- `initiateRidePayment` (payment controller lines 218–350): the caller
must be an accepted passenger whose fare is not already `paid`.  With
the `wallet` method the payment settles at once: a `completed`
transaction, payer debited, driver credited, fare set to `paid`.  With
any other method only a `pending` transaction is created and the fare
set to `pending`. -/
def initiateRidePayment (uid : UserId) (rid : RideId) (amount : Rat)
    (method : PayMethod) (s : LedgerState) : LedgerState × Option Err :=
  match findRideById s rid with
  | none => (s, some .notFound)
  | some r =>
      match r.passengers.find?
          (fun p => p.user = uid ∧ p.status = .accepted) with
      | none => (s, some .unauthorized)
      | some p =>
          if p.fare.fstatus = .paid then (s, some .conflict)
          else if method = .wallet then
            if s.balances uid < amount then (s, some .insufficientFunds)
            else
              match createTxn
                  { sender := uid, receiver := r.driver, amount := amount,
                    type := .ride_payment, status := .completed,
                    method := .wallet, ride := some rid } with
              | .error e => (s, some e)
              | .ok tx =>
                  let b1 := setBalance s.balances uid (s.balances uid - amount)
                  let b2 := setBalance b1 r.driver (b1 r.driver + amount)
                  let r' := setFareFirst
                      (fun q => q.user = uid ∧ q.status = .accepted)
                      { amount := some amount, fstatus := .paid } r
                  (storeRide { s with txs := s.txs ++ [tx], balances := b2 }
                     r',
                   none)
          else
            match createTxn
                { sender := uid, receiver := r.driver, amount := amount,
                  type := .ride_payment, status := .pending,
                  method := method, ride := some rid } with
            | .error e => (s, some e)
            | .ok tx =>
                let r' := setFareFirst
                    (fun q => q.user = uid ∧ q.status = .accepted)
                    { amount := some amount, fstatus := .pending } r
                (storeRide { s with txs := s.txs ++ [tx] } r', none)

/-- Mark the fare of the first entry for `uid` as `paid` (the completion
step finds the entry by user id alone). -/
def markFarePaid (uid : UserId) (r : Ride) : Ride :=
  match updateFirst (fun p => p.user = uid)
      (fun p => { p with fare := { p.fare with fstatus := .paid } })
      r.passengers with
  | none => r
  | some ps => { r with passengers := ps }

/-- `completeRidePayment` (payment controller lines 355–434): the
transaction is looked up, the caller must be its sender and its status
still `pending`; then — *before the ride is looked up* — the transaction
is saved as `completed`.  Only afterwards is the ride fetched: a missing
ride returns 404 with the completed transaction already persisted and no
wallet credited.  On the found path the caller's fare entry is marked
`paid` and the ride's driver credited by the transaction amount. -/
def completeRidePayment (uid : UserId) (rid : RideId) (txId : Nat)
    (s : LedgerState) : LedgerState × Option Err :=
  match s.txs.get? txId with
  | none => (s, some .notFound)
  | some t =>
      if t.sender ≠ uid then (s, some .unauthorized)
      else if t.status ≠ .pending then (s, some .invalidState)
      else
        let s1 := { s with txs := s.txs.set txId { t with status := .completed } }
        match findRideById s1 rid with
        | none => (s1, some .notFound)
        | some r =>
            let s2 := storeRide s1 (markFarePaid uid r)
            let s3 := { s2 with
              balances := setBalance s2.balances r.driver
                (s2.balances r.driver + t.amount) }
            (s3, none)

/-- The ledger operations named by the balance invariant: top-up,
withdrawal, ride payment, payment completion. -/
inductive LedgerOp
  | topup (uid : UserId) (amount : Rat) (method : PayMethod)
  | withdraw (uid : UserId) (amount : Rat)
  | pay (uid : UserId) (rid : RideId) (amount : Rat) (method : PayMethod)
  | completePay (uid : UserId) (rid : RideId) (txId : Nat)

def applyLedgerOp : LedgerOp → LedgerState → LedgerState × Option Err
  | .topup u a m, s => addFundsToWallet u a m s
  | .withdraw u a, s => withdrawFunds u a s
  | .pay u rid a m, s => initiateRidePayment u rid a m s
  | .completePay u rid txId, s => completeRidePayment u rid txId s

/-- The balance formula the specification states: completed credits
minus completed debits. -/
def specSum (txs : List Txn) (u : UserId) : Rat :=
  (txs.filter (fun t => t.receiver = u ∧ t.status = .completed)).foldr
      (fun t acc => t.amount + acc) 0
  - (txs.filter (fun t => t.sender = u ∧ t.status = .completed)).foldr
      (fun t acc => t.amount + acc) 0

/-- The net effect a single transaction actually has on a user's wallet
in this implementation: completed top-ups and completed ride payments
credit the receiver; ride payments debit the sender only when paid from
the wallet.  (Withdrawal transactions never exist: `withdrawFunds`'s
`Transaction.create` always rejects its hardcoded out-of-enum
`'bank_transfer'` method, so no withdrawal is ever recorded or
debited.) -/
def netEffect (u : UserId) (t : Txn) : Rat :=
  (if t.receiver = u ∧ t.status = .completed ∧
      (t.type = .wallet_topup ∨ t.type = .ride_payment)
   then t.amount else 0)
  - (if t.sender = u ∧ t.status = .completed ∧ t.type = .ride_payment ∧
        t.method = .wallet
     then t.amount else 0)

def netSum (txs : List Txn) (u : UserId) : Rat :=
  txs.foldr (fun t acc => netEffect u t + acc) 0

/-- The balance invariant that actually holds of the ledger. -/
def BalanceInv (s : LedgerState) : Prop :=
  ∀ u, s.balances u = netSum s.txs u

/-- Well-formedness of a ledger call: a payment-completion call carries
the transaction's own ride id, for a non-wallet ride-payment transaction
whose recorded receiver is that ride's driver — exactly the shape of
every transaction `initiateRidePayment` creates as `pending`. -/
def LedgerOpWF : LedgerOp → LedgerState → Prop
  | .completePay _ rid txId, s =>
      ∀ t, s.txs.get? txId = some t → t.status = .pending →
        t.type = .ride_payment ∧ t.method ≠ .wallet ∧ t.ride = some rid ∧
        ∀ r, findRideById s rid = some r → r.driver = t.receiver
  | _, _ => True

/-! ## Rating aggregator (`user.controller.js`, `submitRating`) -/

inductive Role
  | driver
  | passenger
deriving DecidableEq, Repr

structure Review where
  reviewer : UserId
  role : Role
  rating : Rat
deriving DecidableEq, Repr

structure RoleRating where
  average : Rat
  count : Nat
deriving DecidableEq, Repr

/-- The rating-bearing part of a User document: the review list and the
per-role aggregates (user.model.js `rating.asDriver` /
`rating.asPassenger`, both defaulting to average 0, count 0). -/
structure RatedUser where
  reviews : List Review
  asDriver : RoleRating
  asPassenger : RoleRating
deriving DecidableEq, Repr

def freshRatedUser : RatedUser :=
  { reviews := [], asDriver := { average := 0, count := 0 },
    asPassenger := { average := 0, count := 0 } }

def sumRatings (l : List Review) : Rat :=
  l.foldr (fun r acc => r.rating + acc) 0

/-- `submitRating` (user.controller.js lines 346–410), acting on the
user being rated: push the review, then recompute the role's average as
`total / count` over the reviews filtered to that role, and set the
count to the filtered length. -/
def submitRating (reviewer : UserId) (role : Role) (rating : Rat)
    (u : RatedUser) : RatedUser :=
  let reviews :=
    u.reviews ++ [{ reviewer := reviewer, role := role, rating := rating }]
  match role with
  | .driver =>
      let driverRatings := reviews.filter (fun r => r.role = .driver)
      let avg := sumRatings driverRatings / (driverRatings.length : Rat)
      { u with reviews := reviews,
               asDriver := { average := avg, count := driverRatings.length } }
  | .passenger =>
      let passengerRatings := reviews.filter (fun r => r.role = .passenger)
      let avg := sumRatings passengerRatings / (passengerRatings.length : Rat)
      { u with reviews := reviews,
               asPassenger := { average := avg,
                                count := passengerRatings.length } }

def ratingFor (u : RatedUser) : Role → RoleRating
  | .driver => u.asDriver
  | .passenger => u.asPassenger

/-! ## Concrete states used to exercise the theorems -/

def zeroImpact : Impact :=
  { co2Saved := 0, fuelSaved := 0, treesEquivalent := 0 }

def defaultFare : Fare := { amount := none, fstatus := .pending }

/-- A freshly created two-seat ride by driver 0. -/
def exRide : Ride :=
  { id := 0, driver := 0, availableSeats := 2, initialSeats := 2,
    passengers := [], status := .scheduled, routeDistance := none,
    fuelEfficiency := none, startLocation := (0, 0), endLocation := (1, 1),
    currentLocation := none }

/-- A ride with no free seat but a still-pending request from user 1. -/
def fullRide : Ride :=
  { id := 0, driver := 0, availableSeats := 0, initialSeats := 1,
    passengers := [{ user := 2, status := .accepted, fare := defaultFare },
                   { user := 1, status := .pending, fare := defaultFare }],
    status := .scheduled, routeDistance := none, fuelEfficiency := none,
    startLocation := (0, 0), endLocation := (1, 1), currentLocation := none }

/-- An in-progress ride matching the specification's impact example:
distance 100, efficiency 10, two accepted passengers. -/
def impactRide : Ride :=
  { id := 0, driver := 0, availableSeats := 1, initialSeats := 3,
    passengers := [{ user := 1, status := .accepted, fare := defaultFare },
                   { user := 2, status := .accepted, fare := defaultFare }],
    status := .in_progress, routeDistance := some 100,
    fuelEfficiency := some 10, startLocation := (0, 0),
    endLocation := (1, 1), currentLocation := some (0, 0) }

def impactCtx : RideCtx := { ride := impactRide, impacts := fun _ => zeroImpact }

/-- A pending non-wallet ride-payment transaction from user 1 to driver 2
over ride 7. -/
def pendingPayTx : Txn :=
  { sender := 1, receiver := 2, amount := 50, type := .ride_payment,
    status := .pending, method := .card, ride := some 7 }

/-- Ride 7: driver 2, one accepted passenger (user 1) with a pending fare. -/
def payRide : Ride :=
  { id := 7, driver := 2, availableSeats := 1, initialSeats := 2,
    passengers := [{ user := 1, status := .accepted,
                     fare := { amount := some 50, fstatus := .pending } }],
    status := .completed, routeDistance := none, fuelEfficiency := none,
    startLocation := (0, 0), endLocation := (1, 1), currentLocation := none }

/-- Ledger holding the pending payment and its ride. -/
def payLedger : LedgerState :=
  { balances := fun _ => 0, txs := [pendingPayTx], rides := [payRide] }

/-- Ledger holding the pending payment but no ride at all — the input on
which payment completion persists the status flip and then aborts. -/
def orphanLedger : LedgerState :=
  { balances := fun _ => 0, txs := [pendingPayTx], rides := [] }

/-- A wallet with 5 rupees for every user. -/
def richLedger : LedgerState :=
  { balances := fun _ => 5, txs := [], rides := [] }

/-! ## Helper lemmas about `updateFirst` and `removeFirst` -/

theorem updateFirst_eq {f : Passenger → Bool} {g : Passenger → Passenger}
    {l l' : List Passenger} (h : updateFirst f g l = some l') :
    ∃ a p b, l = a ++ p :: b ∧ f p = true ∧ l' = a ++ g p :: b ∧
      ∀ q ∈ a, f q = false := by
  induction l generalizing l' with
  | nil => simp [updateFirst] at h
  | cons p ps ih =>
      by_cases hp : f p
      · refine ⟨[], p, ps, rfl, hp, ?_, by simp⟩
        simp [updateFirst, hp] at h
        simpa using h.symm
      · simp [updateFirst, hp] at h
        obtain ⟨qs, hqs, rfl⟩ := h
        obtain ⟨a, q, b, rfl, hq, rfl, ha⟩ := ih hqs
        exact ⟨p :: a, q, b, rfl, hq, rfl, by
          intro x hx
          rcases List.mem_cons.mp hx with rfl | hx
          · simpa using hp
          · exact ha x hx⟩

theorem removeFirst_eq {f : Passenger → Bool}
    {l : List Passenger} {p : Passenger} {l' : List Passenger}
    (h : removeFirst f l = some (p, l')) :
    ∃ a b, l = a ++ p :: b ∧ f p = true ∧ l' = a ++ b ∧
      ∀ q ∈ a, f q = false := by
  induction l generalizing p l' with
  | nil => simp [removeFirst] at h
  | cons x xs ih =>
      by_cases hx : f x
      · simp [removeFirst, hx] at h
        exact ⟨[], xs, by simp [h.1.symm], by simp [h.1.symm, hx],
          by simp [h.2.symm], by simp⟩
      · simp [removeFirst, hx] at h
        obtain ⟨q, qs, hqs, hq1, hq2⟩ := h
        obtain ⟨a, b, rfl, hq, rfl, ha⟩ := ih hqs
        refine ⟨x :: a, b, by simp [hq1], by simpa [hq1.symm] using hq,
          by simp [hq2.symm], ?_⟩
        intro y hy
        rcases List.mem_cons.mp hy with rfl | hy
        · simpa using hx
        · exact ha y hy

/-! ## C7 — wallet withdrawal -/

/-- **C7 (evaluation at the failing input, plus the general shape).**
The insufficient-funds half of the claim holds: an over-balance
withdrawal fails with `InsufficientFunds` and changes nothing.  The
success half is dead code: with sufficient balance, `Transaction.create`
rejects the hardcoded `'bank_transfer'` payment method (not in the
schema enum), so no pending transaction is ever created and the balance
is never debited — concretely, with 5 in the wallet, withdrawing 10
gives `InsufficientFunds` and withdrawing 3 gives the ValidationError,
both leaving the ledger untouched; in general every withdrawal call
returns an error and leaves the state exactly as it was. -/
theorem withdrawFunds_neverDebits :
    (withdrawFunds 0 10 richLedger = (richLedger, some .insufficientFunds) ∧
     withdrawFunds 0 3 richLedger = (richLedger, some .validationFailed)) ∧
    ∀ (uid : UserId) (amount : Rat) (s : LedgerState),
      (withdrawFunds uid amount s).1 = s ∧
      ∃ e, (withdrawFunds uid amount s).2 = some e := by
  constructor
  · constructor
    · have h : richLedger.balances 0 < 10 := by norm_num [richLedger]
      simp [withdrawFunds, h]
    · have h : ¬ richLedger.balances 0 < 3 := by norm_num [richLedger]
      simp [withdrawFunds, h, createTxn, validPaymentMethod]
  · intro uid amount s
    by_cases h : s.balances uid < amount
    · simp [withdrawFunds, h]
    · simp [withdrawFunds, h, createTxn, validPaymentMethod]

/-! ## C5 — payment completion settles exactly once -/

/-- Payment completion aborts before any mutation when the transaction
is no longer `pending`. -/
theorem completePayment_stuck {uid : UserId} {rid : RideId} {txId : Nat}
    {s : LedgerState} {t : Txn} (h1 : s.txs[txId]? = some t)
    (h2 : t.sender = uid) (h3 : t.status ≠ .pending) :
    completeRidePayment uid rid txId s = (s, some .invalidState) := by
  simp [completeRidePayment, h1, h2, h3]

/-- **C5.** Payment completion on a transaction that is no longer
`pending` fails with `InvalidState` and changes nothing; on a `pending`
transaction of the caller, with the ride present, it reports no error,
persists the transaction as `completed` and credits the ride's driver by
the transaction amount — and an immediately repeated call fails with
`InvalidState` leaving the state unchanged, so two successive calls
credit the driver exactly once. -/
theorem completeRidePayment_spec :
    (∀ (uid : UserId) (rid : RideId) (txId : Nat) (s : LedgerState) (t : Txn),
      s.txs.get? txId = some t → t.sender = uid → t.status ≠ .pending →
      completeRidePayment uid rid txId s = (s, some .invalidState)) ∧
    (∀ (uid : UserId) (rid : RideId) (txId : Nat) (s : LedgerState)
        (t : Txn) (r : Ride),
      s.txs.get? txId = some t → t.sender = uid → t.status = .pending →
      findRideById s rid = some r →
      (completeRidePayment uid rid txId s).2 = none ∧
      (completeRidePayment uid rid txId s).1.txs.get? txId =
        some { t with status := .completed } ∧
      (completeRidePayment uid rid txId s).1.balances r.driver =
        s.balances r.driver + t.amount ∧
      completeRidePayment uid rid txId (completeRidePayment uid rid txId s).1 =
        ((completeRidePayment uid rid txId s).1, some .invalidState)) := by
  constructor
  · intro uid rid txId s t h1 h2 h3
    rw [List.get?_eq_getElem?] at h1
    exact completePayment_stuck h1 h2 h3
  · intro uid rid txId s t r h1 h2 h3 h4
    rw [List.get?_eq_getElem?] at h1
    have hlt : txId < s.txs.length := (List.getElem?_eq_some_iff.mp h1).1
    have hfind : findRideById { s with
        txs := s.txs.set txId { t with status := .completed } } rid = some r := h4
    have hget : (s.txs.set txId { t with status := .completed })[txId]? =
        some { t with status := .completed } := List.getElem?_set_self hlt
    have hrun : completeRidePayment uid rid txId s =
        (let s2 := storeRide { s with
            txs := s.txs.set txId { t with status := .completed } }
            (markFarePaid uid r);
         ({ s2 with
             balances :=
               setBalance s2.balances r.driver
                 (s2.balances r.driver + t.amount) },
          none)) := by
      have hfind' := hfind
      simp only [h2] at hfind'
      simp [completeRidePayment, h1, h2, h3, hfind']
    refine ⟨?_, ?_, ?_, ?_⟩
    · simp [hrun]
    · rw [List.get?_eq_getElem?]
      simp [hrun, storeRide, hget]
    · simp [hrun, storeRide, setBalance]
    · have hget2 : (completeRidePayment uid rid txId s).1.txs[txId]? =
          some { t with status := .completed } := by
        simp [hrun, storeRide, hget]
      exact completePayment_stuck hget2 h2 (by simp)

/-- Witness for C5: completing the pending 50-rupee payment credits
driver 2 with 50, and a second completion call fails with `InvalidState`
without further credit. -/
theorem completeRidePayment_spec_witness :
    (completeRidePayment 1 7 0 payLedger).2 = none ∧
    (completeRidePayment 1 7 0 payLedger).1.balances 2 = 50 ∧
    completeRidePayment 1 7 0 (completeRidePayment 1 7 0 payLedger).1 =
      ((completeRidePayment 1 7 0 payLedger).1, some .invalidState) := by
  have h := completeRidePayment_spec.2 1 7 0 payLedger pendingPayTx payRide
    (by rfl) (by rfl) (by rfl) (by rfl)
  refine ⟨h.1, ?_, h.2.2.2⟩
  have hb := h.2.2.1
  simpa [payLedger, payRide, pendingPayTx] using hb

/-! ## C6 — payment completion is not atomic on a missing ride -/

/-- **C6 (evaluation at the failing input).** Completing the pending
50-rupee payment with a ride id that does not resolve reports
`NotFound`, yet persists the transaction as `completed`, credits nobody,
and leaves the ledger inconsistent: the driver's recorded balance is 0
while the net effect of the completed transactions credits them 50. -/
theorem completeRidePayment_notAtomic :
    (completeRidePayment 1 9 0 orphanLedger).2 = some .notFound ∧
    (completeRidePayment 1 9 0 orphanLedger).1.txs =
      [{ pendingPayTx with status := .completed }] ∧
    (completeRidePayment 1 9 0 orphanLedger).1.balances 2 = 0 ∧
    (completeRidePayment 1 9 0 orphanLedger).1.balances 1 = 0 ∧
    netSum (completeRidePayment 1 9 0 orphanLedger).1.txs 2 = 50 := by
  refine ⟨rfl, rfl, rfl, rfl, ?_⟩
  norm_num [completeRidePayment, orphanLedger, pendingPayTx, netSum,
    netEffect, findRideById]

/-! ## C3 — wallet balance vs transaction ledger -/

/-- **C3 (counterexample).** A 100-rupee top-up is recorded as a
completed self-transaction, so the specification's balance formula
(completed credits minus completed debits) nets to 0 while the balance
becomes 100. -/
theorem balance_specSum_counterexample :
    (addFundsToWallet 0 100 .card emptyLedger).2 = none ∧
    (addFundsToWallet 0 100 .card emptyLedger).1.balances 0 = 100 ∧
    specSum (addFundsToWallet 0 100 .card emptyLedger).1.txs 0 = 0 := by
  refine ⟨rfl, ?_, ?_⟩
  · norm_num [addFundsToWallet, createTxn, validPaymentMethod, emptyLedger,
      setBalance]
  · norm_num [specSum, addFundsToWallet, createTxn, validPaymentMethod,
      emptyLedger]

theorem netSum_append (txs : List Txn) (t : Txn) (u : UserId) :
    netSum (txs ++ [t]) u = netSum txs u + netEffect u t := by
  induction txs with
  | nil => simp [netSum]
  | cons x xs ih =>
      simp only [netSum, List.foldr_cons, List.cons_append] at ih ⊢
      rw [ih]
      ring

theorem netSum_set {txs : List Txn} {i : Nat} {t : Txn} (t' : Txn) (u : UserId)
    (h : txs[i]? = some t) :
    netSum (txs.set i t') u =
      netSum txs u - netEffect u t + netEffect u t' := by
  induction txs generalizing i with
  | nil => simp at h
  | cons x xs ih =>
      cases i with
      | zero =>
          simp only [List.getElem?_cons_zero, Option.some_inj] at h
          subst h
          simp only [List.set_cons_zero, netSum, List.foldr_cons]
          ring
      | succ n =>
          simp only [List.getElem?_cons_succ] at h
          have hh := ih h
          simp only [List.set_cons_succ, netSum, List.foldr_cons] at hh ⊢
          rw [hh]
          ring

theorem netEffect_topup (u : UserId) (a : Rat) (m : PayMethod) (v : UserId) :
    netEffect v { sender := u, receiver := u, amount := a,
                  type := .wallet_topup, status := .completed, method := m,
                  ride := none } = if u = v then a else 0 := by
  by_cases hv : u = v <;> simp [netEffect, hv]

theorem netEffect_payWallet (u d : UserId) (a : Rat) (rid : RideId)
    (v : UserId) :
    netEffect v { sender := u, receiver := d, amount := a,
                  type := .ride_payment, status := .completed,
                  method := .wallet, ride := some rid } =
      (if d = v then a else 0) - (if u = v then a else 0) := by
  by_cases hd : d = v <;> by_cases hu : u = v <;>
    simp [netEffect, hd, hu]

theorem netEffect_payPending (u d : UserId) (a : Rat) (rid : RideId)
    (m : PayMethod) (v : UserId) :
    netEffect v { sender := u, receiver := d, amount := a,
                  type := .ride_payment, status := .pending, method := m,
                  ride := some rid } = 0 := by
  simp [netEffect]

theorem netEffect_of_pending (t : Txn) (h : t.status = .pending)
    (v : UserId) : netEffect v t = 0 := by
  simp [netEffect, h]

theorem netEffect_completed_nonwallet (t : Txn) (ht : t.type = .ride_payment)
    (hm : t.method ≠ .wallet) (v : UserId) :
    netEffect v { t with status := .completed } =
      if t.receiver = v then t.amount else 0 := by
  by_cases hv : t.receiver = v <;> simp [netEffect, ht, hm, hv]

/-- **C3 (amended).** The empty ledger satisfies the per-type balance
invariant — each user's balance equals the summed net effect of the
transaction log, where completed top-ups credit their receiver and
completed ride payments credit their receiver and debit their sender
only when paid from the wallet (withdrawals contribute nothing: they
always fail at `Transaction.create`) — and every ledger operation that
reports no error preserves it, provided a payment-completion call is
well-formed (invoked with the pending transaction's own ride id). -/
theorem walletBalance_invariant :
    BalanceInv emptyLedger ∧
    ∀ (op : LedgerOp) (s : LedgerState), BalanceInv s → LedgerOpWF op s →
      (applyLedgerOp op s).2 = none → BalanceInv (applyLedgerOp op s).1 := by
  constructor
  · intro u
    simp [emptyLedger, netSum]
  · intro op s hInv hWF hok
    cases op with
    | topup u a m =>
        intro v
        simp only [applyLedgerOp, addFundsToWallet, createTxn] at hok ⊢
        by_cases hm : validPaymentMethod m
        · simp only [hm, if_true, ite_true, reduceIte] at hok ⊢
          rw [netSum_append, netEffect_topup, ← hInv v]
          by_cases hv : v = u
          · subst hv
            simp [setBalance]
          · have hv' : ¬ u = v := fun h => hv h.symm
            simp [setBalance, hv, hv']
        · simp [hm] at hok
    | withdraw u a =>
        intro v
        simp only [applyLedgerOp, withdrawFunds] at hok ⊢
        by_cases hba : s.balances u < a
        · simp [hba] at hok
        · simp [hba, createTxn, validPaymentMethod] at hok
    | pay u rid a m =>
        intro v
        simp only [applyLedgerOp, initiateRidePayment] at hok ⊢
        cases hr : findRideById s rid with
        | none =>
            rw [hr] at hok
            simp at hok
        | some r =>
            rw [hr] at hok
            simp only [] at hok ⊢
            cases hp : r.passengers.find?
                (fun p => p.user = u ∧ p.status = .accepted) with
            | none =>
                rw [hp] at hok
                simp at hok
            | some p =>
                rw [hp] at hok
                simp only [] at hok ⊢
                by_cases hpaid : p.fare.fstatus = .paid
                · simp [hpaid] at hok
                · by_cases hm : m = .wallet
                  · by_cases hba : s.balances u < a
                    · simp [hpaid, hm, hba] at hok
                    · simp only [hpaid, hm, hba, if_false, ite_false,
                        if_true, ite_true, if_neg, if_pos, createTxn,
                        validPaymentMethod, reduceIte]
                      simp only [storeRide]
                      rw [netSum_append, netEffect_payWallet, ← hInv v]
                      by_cases hdv : r.driver = v <;> by_cases huv : u = v
                      · simp [setBalance, hdv, huv]
                      · have huv2 : ¬ v = u := fun h => huv h.symm
                        simp [setBalance, hdv, huv, huv2]
                      · have hdv2 : ¬ v = r.driver := fun h => hdv h.symm
                        simp [setBalance, hdv, huv, hdv2]
                        ring
                      · have huv2 : ¬ v = u := fun h => huv h.symm
                        have hdv2 : ¬ v = r.driver := fun h => hdv h.symm
                        simp [setBalance, hdv, huv, huv2, hdv2]
                  · simp only [hpaid, hm, if_false, ite_false,
                      createTxn] at hok ⊢
                    by_cases hvm : validPaymentMethod m
                    · simp only [hvm, if_true, ite_true, reduceIte] at hok ⊢
                      simp only [storeRide]
                      rw [netSum_append, netEffect_payPending, ← hInv v]
                      ring
                    · simp [hvm] at hok
    | completePay u rid txId =>
        intro v
        simp only [applyLedgerOp, completeRidePayment] at hok ⊢
        cases ht : s.txs.get? txId with
        | none =>
            rw [ht] at hok
            simp at hok
        | some t =>
            rw [ht] at hok
            simp only [] at hok ⊢
            by_cases hsu : t.sender = u
            · by_cases hpend : t.status = .pending
              · rw [if_neg (show ¬ t.sender ≠ u by simp [hsu]),
                  if_neg (show ¬ t.status ≠ .pending by simp [hpend])] at hok ⊢
                cases hr : findRideById
                    { s with txs := s.txs.set txId { t with status := .completed } }
                    rid with
                | none =>
                    rw [hr] at hok
                    simp at hok
                | some r =>
                    rw [hr] at hok
                    simp only [] at hok ⊢
                    simp only [LedgerOpWF] at hWF
                    obtain ⟨htype, hmeth, -, hdrv⟩ := hWF t ht hpend
                    have hdr : r.driver = t.receiver := hdrv r hr
                    have ht' : s.txs[txId]? = some t := by
                      rw [← List.get?_eq_getElem?]
                      exact ht
                    simp only [storeRide]
                    rw [netSum_set { t with status := .completed } v ht',
                      netEffect_of_pending t hpend,
                      netEffect_completed_nonwallet t htype hmeth, ← hInv v,
                      hdr]
                    by_cases hv : t.receiver = v
                    · rw [hv]
                      simp [setBalance]
                    · have hv' : ¬ v = t.receiver := fun h => hv h.symm
                      simp [setBalance, hv, hv']
              · simp [hsu, hpend] at hok
            · simp [hsu] at hok

/-- Witness for C3: the invariant holds of the empty ledger and is
preserved across a concrete 100-rupee top-up. -/
theorem walletBalance_invariant_witness :
    BalanceInv (applyLedgerOp (.topup 0 100 .card) emptyLedger).1 :=
  walletBalance_invariant.2 (.topup 0 100 .card) emptyLedger
    walletBalance_invariant.1 trivial rfl

/-! ## C9 — rating recomputation -/

/-- **C9.** Submitting a review appends it to the rated user's review
list and then recomputes the rating for the submitted role as the
arithmetic mean over all reviews with that role in the full list, with
the count set to their number; in particular ratings 4 then 2 for the
same user and role give average 3 and count 2. -/
theorem submitRating_correct :
    (∀ (u : RatedUser) (reviewer : UserId) (role : Role) (v : Rat),
      (submitRating reviewer role v u).reviews =
        u.reviews ++ [{ reviewer := reviewer, role := role, rating := v }] ∧
      (ratingFor (submitRating reviewer role v u) role).average =
        sumRatings ((submitRating reviewer role v u).reviews.filter
            (fun rv => rv.role = role)) /
          (((submitRating reviewer role v u).reviews.filter
            (fun rv => rv.role = role)).length : Rat) ∧
      (ratingFor (submitRating reviewer role v u) role).count =
        ((submitRating reviewer role v u).reviews.filter
            (fun rv => rv.role = role)).length) ∧
    (ratingFor (submitRating 1 .driver 2 (submitRating 0 .driver 4
        freshRatedUser)) .driver).average = 3 ∧
    (ratingFor (submitRating 1 .driver 2 (submitRating 0 .driver 4
        freshRatedUser)) .driver).count = 2 := by
  refine ⟨?_, ?_, ?_⟩
  · intro u reviewer role v
    cases role <;> simp [submitRating, ratingFor]
  · norm_num [submitRating, ratingFor, freshRatedUser, sumRatings]
  · rfl

/-! ## C8 — request-to-join characterisation -/

/-- `updateFirst` returns `none` exactly when no element matches. -/
theorem updateFirst_eq_none {f : Passenger → Bool} {g : Passenger → Passenger}
    {l : List Passenger} :
    updateFirst f g l = none ↔ ∀ p ∈ l, f p = false := by
  induction l with
  | nil => simp [updateFirst]
  | cons p ps ih =>
      by_cases hp : f p
      · simp [updateFirst, hp]
      · simp [updateFirst, hp, ih]

/-- **C8.** For an existing ride, request-to-join fails with `Conflict`
exactly when the requester is the driver, a passenger entry already
exists for them, or no seat is free; and when none of these hold it
succeeds, appending exactly one `pending` entry and leaving
`availableSeats` (and everything else) unchanged. -/
theorem requestRide_correct (r : Ride) (uid : UserId) :
    (requestRide uid r = .error .conflict ↔
      (r.driver = uid ∨ (∃ p ∈ r.passengers, p.user = uid) ∨
        r.availableSeats ≤ 0)) ∧
    (¬(r.driver = uid ∨ (∃ p ∈ r.passengers, p.user = uid) ∨
        r.availableSeats ≤ 0) →
      requestRide uid r = .ok { r with
        passengers := r.passengers ++
          [{ user := uid, status := .pending,
             fare := { amount := none, fstatus := .pending } }] }) := by
  by_cases hd : r.driver = uid
  · constructor
    · constructor
      · intro _
        exact .inl hd
      · intro _
        simp [requestRide, hd]
    · intro h
      exact absurd (.inl hd) h
  · by_cases hex : r.passengers.any (fun p => p.user = uid)
    · have hex' : ∃ p ∈ r.passengers, p.user = uid := by
        simpa using List.any_eq_true.mp hex
      constructor
      · constructor
        · intro _
          exact .inr (.inl hex')
        · intro _
          simp [requestRide, hd, hex]
      · intro h
        exact absurd (.inr (.inl hex')) h
    · have hex' : ¬ ∃ p ∈ r.passengers, p.user = uid := by
        intro ⟨p, hpmem, hpu⟩
        exact hex (List.any_eq_true.mpr ⟨p, hpmem, by simp [hpu]⟩)
      by_cases hs : r.availableSeats ≤ 0
      · constructor
        · constructor
          · intro _
            exact .inr (.inr hs)
          · intro _
            simp [requestRide, hd, hex, hs]
        · intro h
          exact absurd (.inr (.inr hs)) h
      · have hs1 : ¬ r.availableSeats < 1 := by omega
        constructor
        · constructor
          · intro h
            exfalso
            simp [requestRide, hd, hex, hs, saveRide, hs1] at h
          · intro h
            rcases h with h | h | h
            · exact absurd h hd
            · exact absurd h hex'
            · exact absurd h hs
        · intro _
          simp [requestRide, hd, hex, hs, saveRide, hs1]

/-- Witness for C8: on the fresh two-seat ride of driver 0, a request by
the driver conflicts, a request by user 1 succeeds. -/
theorem requestRide_correct_witness :
    requestRide 0 exRide = .error .conflict ∧
    requestRide 1 exRide = .ok { exRide with
      passengers := [{ user := 1, status := .pending,
                       fare := { amount := none, fstatus := .pending } }] } := by
  constructor
  · exact (requestRide_correct exRide 0).1.mpr (.inl rfl)
  · exact (requestRide_correct exRide 1).2 (by decide)

/-! ## C10 — request-to-join ignores ride status -/

/-- **C10.** `requestRide` never inspects the ride's status: whatever
status the ride carries — `in_progress`, `completed`, `cancelled`
included — a request from a non-driver with no existing entry succeeds
and appends a `pending` entry whenever a seat is free. -/
theorem requestRide_ignores_status (r : Ride) (uid : UserId)
    (st : RideStatus) (hd : r.driver ≠ uid)
    (hex : ∀ p ∈ r.passengers, p.user ≠ uid)
    (hs : 0 < r.availableSeats) :
    requestRide uid { r with status := st } = .ok { r with
      status := st,
      passengers := r.passengers ++
        [{ user := uid, status := .pending,
           fare := { amount := none, fstatus := .pending } }] } := by
  have hany : r.passengers.any (fun p => p.user = uid) = false := by
    simp only [List.any_eq_false, decide_eq_true_eq]
    exact hex
  have hs0 : ¬ r.availableSeats ≤ 0 := by omega
  have hs1 : ¬ r.availableSeats < 1 := by omega
  simp [requestRide, hd, hany, hs0, saveRide, hs1]

/-- Witness for C10: user 1 can join the fresh ride even after its
status is set to `completed`. -/
theorem requestRide_ignores_status_witness :
    requestRide 1 { exRide with status := RideStatus.completed } =
      .ok { exRide with
        status := RideStatus.completed,
        passengers := [{ user := 1, status := .pending,
                         fare := { amount := none, fstatus := .pending } }] } :=
  requestRide_ignores_status exRide 1 .completed (by decide) (by decide)
    (by decide)

/-! ## C2 — acceptance with no free seat -/

/-- **C2 (counterexample).** On the full ride, accepting user 1's
pending request fails not with `Conflict`/`InvalidTransition` but with
the schema-validation error raised by the `availableSeats ≥ 1` bound. -/
theorem respond_accept_full_counterexample :
    respondToRideRequest 0 1 .accepted fullRide = .error .validationFailed ∧
    Err.validationFailed ≠ .conflict ∧
    Err.validationFailed ≠ .invalidTransition := by
  refine ⟨rfl, by decide, by decide⟩

/-- **C2 (amended).** Accepting a pending request on a ride with no free
seat always fails — the decrement drives `availableSeats` to −1 and the
schema validator rejects the save — so the stored ride is unchanged and
its seat count never goes below zero; but the reported error is the
schema `ValidationError`, not `Conflict`/`InvalidTransition`. -/
theorem respond_accept_full_fails (r : Ride) (target : UserId)
    (hs : r.availableSeats = 0)
    (hp : ∃ p ∈ r.passengers, p.user = target ∧ p.status = .pending) :
    respondToRideRequest r.driver target .accepted r =
      .error .validationFailed := by
  cases hu : updateFirst (fun p => p.user = target ∧ p.status = .pending)
      (fun p => { p with status := .accepted }) r.passengers with
  | none =>
      exfalso
      obtain ⟨p, hpmem, hp1, hp2⟩ := hp
      have := updateFirst_eq_none.mp hu p hpmem
      simp [hp1, hp2] at this
  | some ps =>
      simp only [respondToRideRequest]
      rw [if_neg (show ¬ r.driver ≠ r.driver by simp), hu]
      simp [saveRide, hs]

/-- Witness for C2's amended claim, at the concrete full ride. -/
theorem respond_accept_full_fails_witness :
    respondToRideRequest fullRide.driver 1 .accepted fullRide =
      .error .validationFailed :=
  respond_accept_full_fails fullRide 1 rfl (by decide)

/-! ## C4 — environmental-impact settlement -/

theorem foldl_creditImpact_not_mem (l : List Passenger) (f : UserId → Impact)
    (share : Impact) (u : UserId) (h : u ∉ l.map (fun p => p.user)) :
    (l.foldl (creditImpact share) f) u = f u := by
  induction l generalizing f with
  | nil => rfl
  | cons q qs ih =>
      simp only [List.map_cons, List.mem_cons, not_or] at h
      simp only [List.foldl_cons]
      rw [ih _ h.2]
      simp [creditImpact, h.1]

theorem foldl_creditImpact_mem (l : List Passenger) (f : UserId → Impact)
    (share : Impact) (h : (l.map (fun p => p.user)).Nodup) :
    ∀ p ∈ l, (l.foldl (creditImpact share) f) p.user = (f p.user).add share := by
  induction l generalizing f with
  | nil => simp
  | cons q qs ih =>
      intro p hp
      simp only [List.map_cons, List.nodup_cons] at h
      rcases List.mem_cons.mp hp with rfl | hmem
      · simp only [List.foldl_cons]
        rw [foldl_creditImpact_not_mem qs _ share p.user h.1]
        simp [creditImpact]
      · simp only [List.foldl_cons]
        rw [ih _ h.2 p hmem]
        have hne : p.user ≠ q.user := by
          intro hEq
          exact h.1 (hEq ▸ List.mem_map_of_mem (fun x => x.user) hmem)
        simp [creditImpact, hne]

theorem impact_add_zero (a : Impact) :
    a.add { co2Saved := 0, fuelSaved := 0, treesEquivalent := 0 } = a := by
  simp [Impact.add]

/-- **C4.** Completing an in-progress ride with route distance `d`
(0 when absent), fuel efficiency `e` (15 when absent or 0) and `n`
accepted passengers adds exactly `fuelSaved = d*n/e`,
`co2Saved = fuelSaved * 2.3` and `treesEquivalent = co2Saved / 22` to
the driver's accumulators and a `1/n` share of each to every accepted
passenger's; with `n = 0` every accumulator gains zero and no error
occurs. -/
theorem completeRide_impact (ctx : RideCtx) (d e : Rat)
    (hst : ctx.ride.status = .in_progress)
    (hseats : 1 ≤ ctx.ride.availableSeats)
    (hd : jsNum ctx.ride.routeDistance 0 = d)
    (he : jsNum ctx.ride.fuelEfficiency 15 = e)
    (hnodup : ((ctx.ride.passengers.filter
        (fun p => p.status = .accepted)).map (fun p => p.user)).Nodup)
    (hdrv : ctx.ride.driver ∉ (ctx.ride.passengers.filter
        (fun p => p.status = .accepted)).map (fun p => p.user)) :
    ∃ ctx', completeRide ctx.ride.driver ctx = .ok ctx' ∧
      (ctx'.impacts ctx.ride.driver =
        (ctx.impacts ctx.ride.driver).add
          { co2Saved := d * ((ctx.ride.passengers.filter
                (fun p => p.status = .accepted)).length : Rat) / e * (23/10),
            fuelSaved := d * ((ctx.ride.passengers.filter
                (fun p => p.status = .accepted)).length : Rat) / e,
            treesEquivalent := d * ((ctx.ride.passengers.filter
                (fun p => p.status = .accepted)).length : Rat) / e * (23/10)
                / 22 }) ∧
      (∀ p ∈ ctx.ride.passengers.filter (fun p => p.status = .accepted),
        ctx'.impacts p.user = (ctx.impacts p.user).add
          { co2Saved := d * ((ctx.ride.passengers.filter
                (fun q => q.status = .accepted)).length : Rat) / e * (23/10)
                / ((ctx.ride.passengers.filter
                (fun q => q.status = .accepted)).length : Rat),
            fuelSaved := d * ((ctx.ride.passengers.filter
                (fun q => q.status = .accepted)).length : Rat) / e
                / ((ctx.ride.passengers.filter
                (fun q => q.status = .accepted)).length : Rat),
            treesEquivalent := d * ((ctx.ride.passengers.filter
                (fun q => q.status = .accepted)).length : Rat) / e * (23/10)
                / 22 / ((ctx.ride.passengers.filter
                (fun q => q.status = .accepted)).length : Rat) }) ∧
      ((ctx.ride.passengers.filter
          (fun p => p.status = .accepted)).length = 0 →
        ∀ u, ctx'.impacts u = ctx.impacts u) := by
  have hguard : ¬ ctx.ride.driver ≠ ctx.ride.driver := by simp
  have hsv : ¬ ctx.ride.availableSeats < 1 := by omega
  have hst' : ¬ ctx.ride.status ≠ .in_progress := by simp [hst]
  cases hrun : completeRide ctx.ride.driver ctx with
  | error e =>
      exfalso
      simp [completeRide, hguard, hst', saveRide, hsv] at hrun
  | ok ctx' =>
      simp only [completeRide, hguard, hst', saveRide, hsv, if_false,
        ite_false, if_neg, not_false_eq_true, reduceIte,
        Except.ok.injEq] at hrun
      subst hrun
      refine ⟨_, rfl, ?_, ?_, ?_⟩
      · dsimp only
        rw [foldl_creditImpact_not_mem _ _ _ _ hdrv]
        simp [hd, he]
      · intro p hp
        dsimp only
        rw [foldl_creditImpact_mem _ _ _ hnodup p hp]
        have hpu : p.user ≠ ctx.ride.driver := by
          intro hEq
          exact hdrv (hEq ▸ List.mem_map_of_mem (fun x => x.user) hp)
        simp [hd, he, hpu]
      · intro hn u
        have hfilter : ctx.ride.passengers.filter
            (fun p => p.status = .accepted) = [] := List.length_eq_zero.mp hn
        dsimp only
        simp only [hfilter, List.foldl_nil]
        by_cases hu : u = ctx.ride.driver
        · subst hu
          simp [hfilter, impact_add_zero]
        · simp [hu]

/-- Witness for C4, at the specification's example (distance 100,
efficiency 10, two accepted passengers): the driver gains fuelSaved 20,
co2Saved 46, treesEquivalent 46/22 ≈ 2.09; each passenger gains half of
each. -/
theorem completeRide_impact_witness :
    ∃ ctx', completeRide impactCtx.ride.driver impactCtx = .ok ctx' ∧
      ctx'.impacts 0 = { co2Saved := 46, fuelSaved := 20,
                         treesEquivalent := 46/22 } ∧
      ctx'.impacts 1 = { co2Saved := 23, fuelSaved := 10,
                         treesEquivalent := 23/22 } ∧
      ctx'.impacts 2 = { co2Saved := 23, fuelSaved := 10,
                         treesEquivalent := 23/22 } := by
  obtain ⟨ctx', hok, hdr, hpass, -⟩ :=
    completeRide_impact impactCtx 100 10 rfl (by decide)
      (by norm_num [impactCtx, impactRide, jsNum])
      (by norm_num [impactCtx, impactRide, jsNum])
      (by decide) (by decide)
  have h1 := hpass { user := 1, status := .accepted, fare := defaultFare }
    (by decide)
  have h2 := hpass { user := 2, status := .accepted, fare := defaultFare }
    (by decide)
  refine ⟨ctx', hok, ?_, ?_, ?_⟩
  · norm_num [impactCtx, impactRide, defaultFare, zeroImpact,
      Impact.add] at hdr ⊢
    exact hdr
  · norm_num [impactCtx, impactRide, defaultFare, zeroImpact,
      Impact.add] at h1 ⊢
    exact h1
  · norm_num [impactCtx, impactRide, defaultFare, zeroImpact,
      Impact.add] at h2 ⊢
    exact h2

/-! ## C1 — seat-accounting invariant -/

theorem saveRide_ok {r r' : Ride} (h : saveRide r = .ok r') :
    r' = r ∧ 1 ≤ r.availableSeats := by
  by_cases hs : r.availableSeats < 1
  · simp [saveRide, hs] at h
  · simp [saveRide, hs] at h
    exact ⟨h.symm, by omega⟩

theorem liftRide_ok {f : Ride → Except Err Ride} {ctx ctx' : RideCtx}
    (h : liftRide f ctx = .ok ctx') : f ctx.ride = .ok ctx'.ride := by
  cases hf : f ctx.ride with
  | error e => simp [liftRide, hf] at h
  | ok r2 =>
      simp only [liftRide, hf, Except.ok.injEq] at h
      rw [← h]

theorem seatInv_requestRide {uid : UserId} {r r' : Ride}
    (hInv : SeatInv r) (hU : UniqueUsers r)
    (h : requestRide uid r = .ok r') : SeatInv r' ∧ UniqueUsers r' := by
  by_cases hd : r.driver = uid
  · simp [requestRide, hd] at h
  · by_cases hex : r.passengers.any (fun p => p.user = uid)
    · simp [requestRide, hd, hex] at h
    · by_cases hs : r.availableSeats ≤ 0
      · simp [requestRide, hd, hex, hs] at h
      · simp only [requestRide, hd, hex, hs, ite_false, if_neg,
          not_false_eq_true, reduceIte, Bool.false_eq_true] at h
        obtain ⟨hr', hs1⟩ := saveRide_ok h
        subst hr'
        refine ⟨⟨?_, ?_⟩, ?_⟩
        · dsimp only
          omega
        · have h2 := hInv.2
          simp only [countAccepted, List.filter_append] at h2 ⊢
          simp [h2.symm]
        · have huid : uid ∉ r.passengers.map (fun p => p.user) := by
            intro hmem
            obtain ⟨p, hpmem, hpu⟩ := List.mem_map.mp hmem
            exact hex (List.any_eq_true.mpr ⟨p, hpmem, by simp [hpu]⟩)
          have hU' := hU
          simp only [UniqueUsers, List.map_append, List.map_cons,
            List.map_nil] at hU' ⊢
          rw [List.nodup_append_comm]
          simp only [List.singleton_append, List.nodup_cons]
          exact ⟨huid, hU'⟩

theorem seatInv_respond {caller target : UserId} {st : PassStatus}
    {r r' : Ride} (hInv : SeatInv r) (hU : UniqueUsers r)
    (h : respondToRideRequest caller target st r = .ok r') :
    SeatInv r' ∧ UniqueUsers r' := by
  by_cases hdc : r.driver ≠ caller
  · simp [respondToRideRequest, hdc] at h
  · simp only [respondToRideRequest, hdc, ite_false, if_neg,
      not_false_eq_true, reduceIte] at h
    cases hu : updateFirst (fun p => p.user = target ∧ p.status = .pending)
        (fun p => { p with status := st }) r.passengers with
    | none =>
        rw [hu] at h
        simp at h
    | some ps =>
        rw [hu] at h
        simp only [] at h
        obtain ⟨hr', hs1⟩ := saveRide_ok h
        subst hr'
        obtain ⟨a, p, b, hl, hf, hps, -⟩ := updateFirst_eq hu
        subst hps
        have hpend : p.status = .pending := by
          simp only [decide_eq_true_eq] at hf
          exact hf.2
        have h2 := hInv.2
        simp only [countAccepted] at h2
        rw [hl] at h2
        simp only [← List.countP_eq_length_filter,
          List.countP_append, List.countP_cons, hpend] at h2
        constructor
        · constructor
          · dsimp only at hs1 ⊢
            omega
          · dsimp only [countAccepted]
            simp only [← List.countP_eq_length_filter, List.countP_append,
              List.countP_cons]
            by_cases hacc : st = .accepted
            · simp only [hacc] at h2 ⊢
              simp only [decide_eq_true_eq] at h2 ⊢
              simp at h2 ⊢
              omega
            · simp only [decide_eq_true_eq] at h2 ⊢
              simp [hacc, hpend] at h2 ⊢
              omega
        · have hmap : (a ++ { p with status := st } :: b).map
              (fun q => q.user) =
              (a ++ p :: b).map (fun q => q.user) := by
            simp [List.map_append]
          have hU' := hU
          simp only [UniqueUsers] at hU' ⊢
          rw [hmap, ← hl]
          exact hU'

theorem seatInv_cancelRequest {uid : UserId} {r r' : Ride}
    (hInv : SeatInv r) (hU : UniqueUsers r)
    (h : cancelRideRequest uid r = .ok r') : SeatInv r' ∧ UniqueUsers r' := by
  simp only [cancelRideRequest] at h
  cases hrm : removeFirst (fun p => p.user = uid) r.passengers with
  | none =>
      rw [hrm] at h
      simp at h
  | some pps =>
      rw [hrm] at h
      obtain ⟨p, ps⟩ := pps
      simp only [] at h
      obtain ⟨hr', hs1⟩ := saveRide_ok h
      subst hr'
      obtain ⟨a, b, hl, -, hps, -⟩ := removeFirst_eq hrm
      subst hps
      have h2 := hInv.2
      simp only [countAccepted] at h2
      rw [hl] at h2
      simp only [← List.countP_eq_length_filter, List.countP_append,
        List.countP_cons] at h2
      constructor
      · constructor
        · dsimp only at hs1 ⊢
          omega
        · dsimp only [countAccepted]
          simp only [← List.countP_eq_length_filter, List.countP_append]
          by_cases hacc : p.status = .accepted
          · simp only [hacc, decide_eq_true_eq] at h2 ⊢
            simp at h2 ⊢
            omega
          · simp [hacc] at h2 ⊢
            omega
      · have hsub : ((a ++ b).map (fun q => q.user)).Sublist
            (((a ++ p :: b)).map (fun q => q.user)) :=
          ((List.Sublist.refl a).append (List.sublist_cons_self p b)).map _
      -- Nodup preserved along the sublist
        have hU' := hU
        simp only [UniqueUsers] at hU' ⊢
        rw [hl] at hU'
        exact hU'.sublist hsub

theorem seatInv_start {caller : UserId} {r r' : Ride}
    (hInv : SeatInv r) (hU : UniqueUsers r)
    (h : startRide caller r = .ok r') : SeatInv r' ∧ UniqueUsers r' := by
  by_cases h1 : r.driver ≠ caller
  · simp [startRide, h1] at h
  · by_cases h2 : r.status ≠ .scheduled
    · simp [startRide, h1, h2] at h
    · simp only [startRide, h1, h2, ite_false, if_neg,
        not_false_eq_true, reduceIte] at h
      obtain ⟨hr', -⟩ := saveRide_ok h
      subst hr'
      exact ⟨⟨hInv.1, hInv.2⟩, hU⟩

theorem seatInv_updateLocation {caller : UserId} {loc : Loc} {r r' : Ride}
    (hInv : SeatInv r) (hU : UniqueUsers r)
    (h : updateRideLocation caller loc r = .ok r') :
    SeatInv r' ∧ UniqueUsers r' := by
  by_cases h1 : r.driver ≠ caller
  · simp [updateRideLocation, h1] at h
  · by_cases h2 : r.status ≠ .in_progress
    · simp [updateRideLocation, h1, h2] at h
    · simp only [updateRideLocation, h1, h2, ite_false, if_neg,
        not_false_eq_true, reduceIte] at h
      obtain ⟨hr', -⟩ := saveRide_ok h
      subst hr'
      exact ⟨⟨hInv.1, hInv.2⟩, hU⟩

theorem seatInv_complete {caller : UserId} {ctx ctx' : RideCtx}
    (hInv : SeatInv ctx.ride) (hU : UniqueUsers ctx.ride)
    (h : completeRide caller ctx = .ok ctx') :
    SeatInv ctx'.ride ∧ UniqueUsers ctx'.ride := by
  by_cases h1 : ctx.ride.driver ≠ caller
  · simp [completeRide, h1] at h
  · by_cases h2 : ctx.ride.status ≠ .in_progress
    · simp [completeRide, h1, h2] at h
    · by_cases h3 : ctx.ride.availableSeats < 1
      · simp [completeRide, h1, h2, saveRide, h3] at h
      · simp only [completeRide, h1, h2, saveRide, h3, ite_false, if_neg,
          if_false, not_false_eq_true, reduceIte, Except.ok.injEq] at h
        subst h
        exact ⟨⟨hInv.1, hInv.2⟩, hU⟩

theorem seatInv_cancel {caller : UserId} {r r' : Ride}
    (hInv : SeatInv r) (hU : UniqueUsers r)
    (h : cancelRide caller r = .ok r') : SeatInv r' ∧ UniqueUsers r' := by
  simp only [cancelRide] at h
  by_cases hst : r.status = .completed ∨ r.status = .cancelled
  · simp only [hst] at h
    split at h <;> simp at h
  · by_cases hd : r.driver = caller
    · simp only [hd, hst, not_true_eq_false, false_and, and_false,
        if_false, ite_false, if_true, ite_true, not_false_eq_true,
        reduceIte, if_neg, if_pos] at h
      obtain ⟨hr', -⟩ := saveRide_ok h
      subst hr'
      exact ⟨⟨hInv.1, hInv.2⟩, hU⟩
    · by_cases hp : r.passengers.any
          (fun p => p.user = caller ∧ p.status = .accepted)
      · simp only [hd, hp, hst, not_false_eq_true, not_true_eq_false,
          true_and, and_false, false_and, if_false, ite_false, if_true,
          ite_true, reduceIte, if_neg, if_pos] at h
        cases hu : updateFirst (fun p => p.user = caller)
            (fun p => { p with status := .cancelled }) r.passengers with
        | none =>
            rw [hu] at h
            simp at h
        | some ps =>
            rw [hu] at h
            simp only [] at h
            obtain ⟨hr', hs1⟩ := saveRide_ok h
            subst hr'
            obtain ⟨a, p, b, hl, hf, hps, ha⟩ := updateFirst_eq hu
            subst hps
            have hpu : p.user = caller := by simpa using hf
            have hpacc : p.status = .accepted := by
              obtain ⟨q, hqmem, hq⟩ := List.any_eq_true.mp hp
              simp only [decide_eq_true_eq] at hq
              rw [hl] at hqmem
              rcases List.mem_append.mp hqmem with hqa | hqpb
              · have := ha q hqa
                simp [hq.1] at this
              · rcases List.mem_cons.mp hqpb with rfl | hqb
                · exact hq.2
                · exfalso
                  have hU' := hU
                  simp only [UniqueUsers] at hU'
                  rw [hl] at hU'
                  simp only [List.map_append, List.map_cons] at hU'
                  have hnotin : p.user ∉ b.map (fun x => x.user) :=
                    (List.nodup_cons.mp (List.nodup_append.mp hU').2.1).1
                  refine hnotin ?_
                  rw [hpu, ← hq.1]
                  exact List.mem_map_of_mem _ hqb
            have h2 := hInv.2
            simp only [countAccepted] at h2
            rw [hl] at h2
            simp only [← List.countP_eq_length_filter, List.countP_append,
              List.countP_cons, hpacc] at h2
            constructor
            · constructor
              · dsimp only at hs1 ⊢
                omega
              · dsimp only [countAccepted]
                simp only [← List.countP_eq_length_filter,
                  List.countP_append, List.countP_cons]
                simp at h2 ⊢
                omega
            · have hmap : (a ++ { p with status := PassStatus.cancelled }
                  :: b).map (fun q => q.user) =
                  (a ++ p :: b).map (fun q => q.user) := by
                simp [List.map_append]
              have hU' := hU
              simp only [UniqueUsers] at hU' ⊢
              rw [hmap, ← hl]
              exact hU'
      · have hp' : ∀ x ∈ r.passengers, x.user = caller →
            ¬x.status = PassStatus.accepted := by simpa using hp
        simp only [hd, hst, not_false_eq_true, true_and, if_false,
          ite_false, reduceIte] at h
        rw [if_pos hp] at h
        simp at h

/-- **C1.** Ride creation establishes — and every completed ride
operation (request, respond, cancel-request, start, complete, cancel,
update-location) preserves — the seat-accounting invariant:
`availableSeats ≥ 0` and `availableSeats` plus the number of `accepted`
passenger entries equals the seat count supplied at creation (together
with at-most-one-entry-per-user, which the request guard maintains). -/
theorem seatInvariant_preserved :
    (∀ (driver : UserId) (id : RideId) (seats : Int)
        (dist eff : Option Rat) (sLoc eLoc : Loc) (r : Ride),
      createRide driver id seats dist eff sLoc eLoc = .ok r →
      SeatInv r ∧ UniqueUsers r) ∧
    (∀ (op : RideOp) (ctx ctx' : RideCtx),
      SeatInv ctx.ride → UniqueUsers ctx.ride →
      applyRideOp op ctx = .ok ctx' →
      SeatInv ctx'.ride ∧ UniqueUsers ctx'.ride) := by
  constructor
  · intro driver id seats dist eff sLoc eLoc r h
    obtain ⟨hr, hs⟩ := saveRide_ok h
    subst hr
    dsimp only at hs
    refine ⟨⟨by dsimp only; omega, ?_⟩, by simp [UniqueUsers]⟩
    simp [countAccepted]
  · intro op ctx ctx' hInv hU h
    cases op with
    | request uid => exact seatInv_requestRide hInv hU (liftRide_ok h)
    | respond c t st => exact seatInv_respond hInv hU (liftRide_ok h)
    | cancelRequest uid => exact seatInv_cancelRequest hInv hU (liftRide_ok h)
    | start c => exact seatInv_start hInv hU (liftRide_ok h)
    | complete c => exact seatInv_complete hInv hU h
    | cancel c => exact seatInv_cancel hInv hU (liftRide_ok h)
    | updateLocation c l =>
        exact seatInv_updateLocation hInv hU (liftRide_ok h)

/-- Witness for C1: creation of the concrete two-seat ride establishes
the invariant, and user 1's join request preserves it. -/
theorem seatInvariant_preserved_witness :
    (SeatInv exRide ∧ UniqueUsers exRide) ∧
    (SeatInv { exRide with
        passengers := [{ user := 1, status := .pending,
                         fare := { amount := none, fstatus := .pending } }] } ∧
     UniqueUsers { exRide with
        passengers := [{ user := 1, status := .pending,
                         fare := { amount := none, fstatus := .pending } }] }) := by
  constructor
  · exact seatInvariant_preserved.1 0 0 2 none none (0, 0) (1, 1) exRide rfl
  · exact seatInvariant_preserved.2 (.request 1)
      { ride := exRide, impacts := fun _ => zeroImpact }
      { ride := { exRide with
          passengers := [{ user := 1, status := .pending,
                           fare := { amount := none, fstatus := .pending } }] },
        impacts := fun _ => zeroImpact }
      (by decide) (by decide) rfl
